import Mathlib

/-!
Verification of the OTP bank-statement extraction engine (`otp_parser.py`).

The Python source is shallowly embedded below.  Monetary values (Python
`float`s that always arise from `to_float` on decimal strings of the form
`-?\d{1,3}(\.\d{3})*,\d{2}`, hence exact multiples of 1/100) are modelled as
rationals; `round(x, 2)` is modelled as exact round-half-to-even on the
scaled value, which is Python's rounding rule.  Regular-expression matching
(`re.match` / `re.fullmatch`) is modelled by an explicit backtracking matcher
in continuation-passing style that follows Python's leftmost / greedy /
ordered-alternative semantics; `\d`, `\s` and `str.strip`/`str.lower` are
modelled on their ASCII behaviour, which covers every token the statement
layout produces.
-/

/-- One lexical token of a PDF page together with its position, as produced
by `pdfplumber.extract_words()`: only the fields the parser reads. -/
structure WordBox where
  text : String
  x0 : ℚ
  top : ℚ
deriving DecidableEq, Repr

/-- A PDF page as the parser sees it: the extracted text lines
(`page.extract_text().splitlines()`, `[]` for a page with no text — a page
whose text is falsy is skipped by the source, which is observationally the
same as scanning zero lines) and the word boxes (`page.extract_words()`). -/
structure Page where
  lines : List String
  words : List WordBox
deriving Repr

/-- Numeric value of a list of decimal digit characters. -/
def digitsVal (l : List Char) : ℕ :=
  l.foldl (fun a c => a * 10 + (c.toNat - 48)) 0

/-- Python `str.strip()`: drop whitespace from both ends (stated on the
character list so that concrete runs compute). -/
def strip (s : String) : String :=
  String.mk
    (((s.data.dropWhile Char.isWhitespace).reverse.dropWhile
        Char.isWhitespace).reverse)

/-- Python `str.lower()` on the ASCII tokens the parser compares. -/
def lowerStr (s : String) : String := String.mk (s.data.map Char.toLower)

/-- String part of `to_float`: drop the thousands dots, detect a leading
minus, and split at the decimal comma, returning
(negative?, integer part, fractional part, number of fractional digits). -/
def parseDec (s : String) : Bool × ℕ × ℕ × ℕ :=
  let cs := s.data.filter (fun c => c ≠ '.')
  let neg := cs.head? = some '-'
  let cs := if neg then cs.drop 1 else cs
  let ip := cs.takeWhile (fun c => c ≠ ',')
  let fp := (cs.dropWhile (fun c => c ≠ ',')).drop 1
  (neg, digitsVal ip, digitsVal fp, fp.length)

/-- Numeric assembly of `to_float`. -/
def ofParsedDec (p : Bool × ℕ × ℕ × ℕ) : ℚ :=
  let v : ℚ := (p.2.1 : ℚ) + (p.2.2.1 : ℚ) / ((10 : ℚ) ^ p.2.2.2)
  if p.1 then -v else v

/-- Model of `to_float`: value of a string such as `1.234,56` or `-208,54`
(drop the thousands dots, the comma is the decimal point).  On the decimal
strings produced by the patterns below this agrees exactly with the Python
`float(s.replace(".", "").replace(",", "."))`. -/
def to_float (s : String) : ℚ := ofParsedDec (parseDec s)

/-- Round a rational to the nearest integer, ties to even
(Python's rounding rule). -/
def roundHalfEven (q : ℚ) : ℤ :=
  let n := ⌊q⌋
  let f := q - (n : ℚ)
  if f < 1/2 then n
  else if 1/2 < f then n + 1
  else if Even n then n else n + 1

/-- Model of `round(x, 2)`. -/
def round2 (q : ℚ) : ℚ := (roundHalfEven (q * 100) : ℚ) / 100

/-! ### Backtracking regex matcher

Continuation-passing combinators reproducing Python `re` backtracking:
each combinator tries its alternatives in Python's priority order (greedy
quantifiers long-first, optional groups present-first) and hands the rest of
the input to the continuation; the first overall success wins. -/

/-- ASCII decimal digit (`\d` on the statement text). -/
def isDig (c : Char) : Bool := c.isDigit

/-- Consume exactly `n` characters satisfying `p`, returning the rest. -/
def takeExact (p : Char → Bool) : ℕ → List Char → Option (List Char)
  | 0, s => some s
  | _ + 1, [] => none
  | n + 1, c :: s => if p c then takeExact p n s else none

/-- Try the continuation on `s.drop i` for `i = n, n-1, …, 1` (first success
wins).  Used for greedy `+`/`*` over a character class: every dropped prefix
consists of class characters, so this is exactly the backtracking order. -/
def tryDrops (s : List Char) (k : List Char → Option ρ) : ℕ → Option ρ
  | 0 => none
  | i + 1 => k (s.drop (i + 1)) <|> tryDrops s k i

/-- Length of the maximal prefix satisfying `p`. -/
def spanLen (p : Char → Bool) (s : List Char) : ℕ := (s.takeWhile p).length

/-- Matcher for `\s+` (greedy, with backtracking). -/
def wsPlus (s : List Char) (k : List Char → Option ρ) : Option ρ :=
  tryDrops s k (spanLen Char.isWhitespace s)

/-- Matcher for `\s*` (greedy, with backtracking). -/
def wsStar (s : List Char) (k : List Char → Option ρ) : Option ρ :=
  tryDrops s k (spanLen Char.isWhitespace s) <|> k s

/-- Matcher for `(\.\d{3})*` (greedy, with backtracking): grab another `.ddd` group
first; on failure of the rest, stop extending. -/
def decTail : List Char → (List Char → Option ρ) → Option ρ
  | '.' :: a :: b :: c :: t, k =>
    (if isDig a && isDig b && isDig c then decTail t k else none)
      <|> k ('.' :: a :: b :: c :: t)
  | s, k => k s

/-- Matcher for `\d{1,3}(\.\d{3})*,\d{2}` from the head of `s` (greedy: three leading
digits tried first), passing the rest to `k`. -/
def decFrom (s : List Char) (k : List Char → Option ρ) : Option ρ :=
  let after : List Char → Option ρ := fun r =>
    match r with
    | ',' :: a :: b :: u => if isDig a && isDig b then k u else none
    | _ => none
  let tryN : ℕ → Option ρ := fun n =>
    match takeExact isDig n s with
    | some t => decTail t after
    | none => none
  tryN 3 <|> tryN 2 <|> tryN 1

/-- The text consumed between `s` and its suffix `rest`. -/
def consumed (s rest : List Char) : String :=
  String.mk (s.take (s.length - rest.length))

/-- Capturing `(\d{1,3}(\.\d{3})*,\d{2})`. -/
def decCap (s : List Char) (k : String → List Char → Option ρ) : Option ρ :=
  decFrom s (fun rest => k (consumed s rest) rest)

/-- Capturing optional `(\d{1,3}(\.\d{3})*,\d{2})?` (present tried first). -/
def optDecCap (s : List Char) (k : Option String → List Char → Option ρ) :
    Option ρ :=
  decCap s (fun str rest => k (some str) rest) <|> k none s

/-- Capturing `(-?\d{1,3}(\.\d{3})*,\d{2})` (minus branch tried first). -/
def signedDecCap (s : List Char) (k : String → List Char → Option ρ) :
    Option ρ :=
  (match s with
   | '-' :: t => decCap t (fun str rest => k ("-" ++ str) rest)
   | _ => none)
  <|> decCap s k

/-- Capturing `(\d{2}\.\d{2}\.\d{4})`. -/
def dateCap (s : List Char) (k : String → List Char → Option ρ) : Option ρ :=
  match s with
  | d1 :: d2 :: '.' :: m1 :: m2 :: '.' :: y1 :: y2 :: y3 :: y4 :: t =>
    if [d1, d2, m1, m2, y1, y2, y3, y4].all isDig then
      k (String.mk (d1 :: d2 :: '.' :: m1 :: m2 :: '.' :: [y1, y2, y3, y4])) t
    else none
  | _ => none

/-- Capturing `(\d{10})`. -/
def digits10Cap (s : List Char) (k : String → List Char → Option ρ) :
    Option ρ :=
  match takeExact isDig 10 s with
  | some t => k (consumed s t) t
  | none => none

/-- Capturing `(\S+)` (greedy, with backtracking). -/
def nonWsPlusCap (s : List Char) (k : String → List Char → Option ρ) :
    Option ρ :=
  go (spanLen (fun c => !c.isWhitespace) s)
where
  go : ℕ → Option ρ
    | 0 => none
    | i + 1 => k (String.mk (s.take (i + 1))) (s.drop (i + 1)) <|> go i

/-- Capturing `(.+)$` (no flags: `.` excludes a newline, `$` matches at the
end or just before one trailing newline). -/
def descCap (s : List Char) (k : String → Option ρ) : Option ρ :=
  let t := if s.getLast? = some '\n' then s.dropLast else s
  if t.isEmpty then none
  else if t.any (fun c => c = '\n') then none
  else k (String.mk t)

/-- The seven capture groups of `TX_PATTERN`. -/
structure TxG where
  date : String
  txid : String
  account : String
  dobro : Option String
  breme : Option String
  balance : String
  desc : String
deriving DecidableEq, Repr

/-- Model of `TX_PATTERN.match(line)`: anchored match of
`^(\d{2}\.\d{2}\.\d{4})\s+(\d{10})\s+(\S+)\s+(dec)?\s*(dec)?\s+(-?dec)\s+(.+)$`
with Python backtracking, returning the groups of the first match. -/
def txMatch (line : String) : Option TxG :=
  dateCap line.data fun date r1 =>
  wsPlus r1 fun r2 =>
  digits10Cap r2 fun txid r3 =>
  wsPlus r3 fun r4 =>
  nonWsPlusCap r4 fun account r5 =>
  wsPlus r5 fun r6 =>
  optDecCap r6 fun dobro r7 =>
  wsStar r7 fun r8 =>
  optDecCap r8 fun breme r9 =>
  wsPlus r9 fun r10 =>
  signedDecCap r10 fun bal r11 =>
  wsPlus r11 fun r12 =>
  descCap r12 fun desc =>
  some ⟨date, txid, account, dobro, breme, bal, desc⟩

/-- Model of `START_BALANCE_PATTERN.match(candidate)`: `^EUR\s+` followed by four
signed decimals separated by `\s+`; only group 1 (the opening balance) is
used by the source. -/
def startBalanceMatch (line : String) : Option String :=
  match line.data with
  | 'E' :: 'U' :: 'R' :: t =>
    wsPlus t fun r1 =>
    signedDecCap r1 fun g1 r2 =>
    wsPlus r2 fun r3 =>
    signedDecCap r3 fun _ r4 =>
    wsPlus r4 fun r5 =>
    signedDecCap r5 fun _ r6 =>
    wsPlus r6 fun r7 =>
    signedDecCap r7 fun _ _ =>
    some g1
  | _ => none

/-- Model of `AMOUNT_FIELD_PATTERN.fullmatch(text)`: the whole string is one unsigned
decimal `\d{1,3}(\.\d{3})*,\d{2}`. -/
def amountFieldFull (s : String) : Bool :=
  (decFrom (ρ := Unit) s.data
    (fun rest => if rest.isEmpty then some () else none)).isSome

/-! ### Layout sign resolver -/

/-- The constant `ROW_Y_TOLERANCE`. -/
def ROW_Y_TOLERANCE : ℚ := 1

/-- The constant `COLUMN_SPLIT_X`. -/
def COLUMN_SPLIT_X : ℚ := 360

/-- Model of `determine_amount_sign_from_layout(words, txid, amount_str, balance_str)`:
find the first word equal to the transaction id, collect the decimal-looking
words of its row (vertical distance ≤ `ROW_Y_TOLERANCE`), remember the
x-position of the first row word equal to the balance string, sort the row
words by x-position (Python's stable sort) and return the sign of the first
one equal to the amount string that is not at/right of the balance; `-1`
left of `COLUMN_SPLIT_X`, else `1`.  `none` when nothing qualifies. -/
def determine_amount_sign_from_layout (words : List WordBox)
    (txid amount_str balance_str : String) : Option ℤ :=
  if words.isEmpty then none
  else
    match words.find? (fun w => w.text == txid) with
    | none => none
    | some w0 =>
      let row := words.filter (fun c => decide (|c.top - w0.top| ≤ ROW_Y_TOLERANCE))
      let balance_x : Option ℚ := (row.find? (fun c => c.text == balance_str)).map (fun c => c.x0)
      let row_words := row.filter (fun c => amountFieldFull c.text)
      if row_words.isEmpty then none
      else
        ((row_words.mergeSort (fun a b => decide (a.x0 ≤ b.x0))).find?
            (fun c => c.text == amount_str &&
              !(match balance_x with
                | some bx => decide (bx ≤ c.x0)
                | none => false))).map
          (fun c => if c.x0 < COLUMN_SPLIT_X then -1 else 1)

/-- The layout sign resolver as the specification describes it (claim C5):
consider only the words of the id token's row (vertical position within 1.0
unit) that look like decimals and sit strictly left of the balance token's
position, and classify the first of them (by horizontal position) whose text
equals the amount token: `-1` left of the fixed column boundary, `+1`
otherwise; `none` when the row cannot be reconstructed. -/
def layoutSignClaim (words : List WordBox)
    (txid amount_str balance_str : String) : Option ℤ :=
  match words.find? (fun w => w.text == txid) with
  | none => none
  | some w0 =>
    let row := words.filter (fun c => decide (|c.top - w0.top| ≤ ROW_Y_TOLERANCE))
    let balance_x : Option ℚ := (row.find? (fun c => c.text == balance_str)).map (fun c => c.x0)
    let candidates :=
      ((row.filter (fun c => amountFieldFull c.text)).mergeSort
          (fun a b => decide (a.x0 ≤ b.x0))).filter
        (fun c =>
          match balance_x with
          | some bx => decide (c.x0 < bx)
          | none => true)
    (candidates.find? (fun c => c.text == amount_str)).map
      (fun c => if c.x0 < COLUMN_SPLIT_X then -1 else 1)

/-! ### Single-document parser -/

/-- The `footer_tokens` of `parse_single_pdf`. -/
def footer_tokens : List String :=
  ["otp banka", "d8008", "izpis prometa", "stran", "legenda"]

/-- Python `needle in hay` (substring containment). -/
def strContains (hay needle : String) : Bool :=
  hay.data.tails.any (fun t => needle.data.isPrefixOf t)

/-- Model of `any(token in lower for token in footer_tokens)` on an
already-stripped line. -/
def isFooter (nxt : String) : Bool :=
  footer_tokens.any (fun t => strContains (lowerStr nxt) t)

/-- The continuation-absorption loop of `parse_single_pdf` (the inner
`while look_ahead < len(lines)` loop), on the lines after the transaction
line: skip blank lines, stop before a line whose stripped form matches
`TX_PATTERN` or contains a footer token, drop lone `"/"` separators, and
collect every other stripped line.  Returns the collected `extra_lines`
and the remaining lines from the boundary on (scanning resumes there). -/
def collectExtras : List String → List String × List String
  | [] => ([], [])
  | l :: rest =>
    let nxt := strip l
    if nxt = "" then collectExtras rest
    else if (txMatch nxt).isSome then ([], l :: rest)
    else if isFooter nxt then ([], l :: rest)
    else if nxt = "/" then collectExtras rest
    else
      let t := collectExtras rest
      (nxt :: t.1, t.2)

/-- Lines 161-164 of the source: when continuation lines were absorbed,
join the initial description (kept only when non-empty and not a bare `"."`)
with them, normalizing whitespace; otherwise keep the initial description. -/
def buildDesc (desc : String) (extras : List String) : String :=
  if extras.isEmpty then desc
  else
    let desc_parts := (if desc ≠ "" ∧ desc ≠ "." then [desc] else []) ++ extras
    strip (String.intercalate " " (desc_parts.map strip))

/-- The row dictionary appended by `parse_single_pdf` (before the DataFrame
post-processing of lines 201-205). -/
structure Row0 where
  SourceFile : String
  Date : String
  TransactionID : String
  AccountOrRef : String
  DobroRaw : String
  BremeRaw : String
  AmountRaw : String
  AmountSign : ℤ
  BalanceRaw : String
  Description : String
deriving DecidableEq, Repr

/-- Lines 126-134 of the source: provisional amount string and sign from
column presence (credit → `+1`, else debit → `-1`, else `"0,00"`/`+1`). -/
def amountAndSign (g : TxG) : String × ℤ :=
  match g.dobro with
  | some d => (d, 1)
  | none =>
    match g.breme with
    | some b => (b, -1)
    | none => ("0,00", 1)

/-- Lines 136-140 of the source: the sign actually used for the provisional
signed amount — the layout resolver's answer when it gives one, otherwise
the column-presence sign of `amountAndSign`. -/
def usedSign (words : List WordBox) (g : TxG) : ℤ :=
  match determine_amount_sign_from_layout words g.txid (amountAndSign g).1
      g.balance with
  | some s => s
  | none => (amountAndSign g).2

/-- Lines 166-173 of the source: the reconciled signed amount — provisional
`magnitude × usedSign`, replaced by the rounded balance delta whenever a
previous balance exists and the delta's magnitude matches the amount
magnitude within `0.01`. -/
def signedAmount (words : List WordBox) (prev : Option ℚ) (g : TxG) : ℚ :=
  let raw_amount_value := to_float (amountAndSign g).1
  let provisional : ℚ := raw_amount_value * (usedSign words g : ℚ)
  match prev with
  | some p =>
    let diff_amount := round2 (to_float g.balance - p)
    if |(|diff_amount| - raw_amount_value)| ≤ 1/100 then diff_amount
    else provisional
  | none => provisional

/-- Lines 122-192 of the source: build one emitted row from the matched
groups, the page words, the running previous balance and the absorbed
continuation lines; also returns the new previous balance (the printed
balance of this transaction).  Lines 166-173 (the reconciled signed amount)
are `signedAmount` above. -/
def mkRow (fname : String) (words : List WordBox) (prev : Option ℚ)
    (g : TxG) (extras : List String) : Row0 × ℚ :=
  let amount_str := (amountAndSign g).1
  let signed_amount := signedAmount words prev g
  let final_sign : ℤ := if 0 ≤ signed_amount then 1 else -1
  ({ SourceFile := fname, Date := g.date, TransactionID := g.txid,
     AccountOrRef := g.account,
     DobroRaw := if 0 ≤ signed_amount then amount_str else "",
     BremeRaw := if 0 ≤ signed_amount then "" else amount_str,
     AmountRaw := amount_str, AmountSign := final_sign,
     BalanceRaw := g.balance, Description := buildDesc (strip g.desc) extras },
   to_float g.balance)

theorem collectExtras_rem_length_le (l : List String) :
    (collectExtras l).2.length ≤ l.length := by
  induction l with
  | nil => simp [collectExtras]
  | cons a rest ih =>
    simp only [collectExtras]
    split
    · exact Nat.le_succ_of_le ih
    · split
      · simp
      · split
        · simp
        · split
          · exact Nat.le_succ_of_le ih
          · simpa using Nat.le_succ_of_le ih

/-- The outer `while idx < len(lines)` loop of `parse_single_pdf` on one
page: try `TX_PATTERN` on each raw line; on a match, absorb continuation
lines, emit a row, update the previous balance to this transaction's
balance, and resume scanning at the boundary line. -/
def scanLines (fname : String) (words : List WordBox) :
    List String → Option ℚ → List Row0 × Option ℚ
  | [], prev => ([], prev)
  | l :: rest, prev =>
    match txMatch l with
    | none => scanLines fname words rest prev
    | some g =>
      let ce := collectExtras rest
      let rb := mkRow fname words prev g ce.1
      let t := scanLines fname words ce.2 (some rb.2)
      (rb.1 :: t.1, t.2)
termination_by ls _ => ls.length
decreasing_by
  · simp
  · simpa using Nat.lt_succ_of_le (collectExtras_rem_length_le rest)

/-- The per-document mutable state of `parse_single_pdf`. -/
structure DocState where
  start_balance_set : Bool
  previous_balance : Option ℚ
deriving Repr

/-- One page of `parse_single_pdf`: scan for the opening-balance line while
it has not been found yet (first stripped line matching
`START_BALANCE_PATTERN` seeds the previous balance), then run the
transaction loop over the page's lines. -/
def parsePage (fname : String) (st : DocState) (pg : Page) :
    List Row0 × DocState :=
  let st :=
    if st.start_balance_set then st
    else
      match pg.lines.findSome?
          (fun c => (startBalanceMatch (strip c)).map to_float) with
      | some b => ⟨true, some b⟩
      | none => st
  let sc := scanLines fname pg.words pg.lines st.previous_balance
  (sc.1, ⟨st.start_balance_set, sc.2⟩)

/-- A fully post-processed transaction record: the `Row0` dictionary plus
the derived DataFrame columns of lines 201-205. -/
structure Row where
  SourceFile : String
  Date : String
  TransactionID : String
  AccountOrRef : String
  DobroRaw : String
  BremeRaw : String
  AmountRaw : String
  AmountSign : ℤ
  BalanceRaw : String
  Description : String
  Amount : ℚ
  Balance : ℚ
  Year : ℕ
  Month : ℕ
deriving DecidableEq, Repr

/-- Lines 201-205 of the source: `Amount = to_float(AmountRaw) * AmountSign`,
`Balance = to_float(BalanceRaw)`, `Year = int(Date[-4:])`,
`Month = int(Date[3:5])`. -/
def finalizeRow (r : Row0) : Row :=
  { SourceFile := r.SourceFile, Date := r.Date,
    TransactionID := r.TransactionID, AccountOrRef := r.AccountOrRef,
    DobroRaw := r.DobroRaw, BremeRaw := r.BremeRaw,
    AmountRaw := r.AmountRaw, AmountSign := r.AmountSign,
    BalanceRaw := r.BalanceRaw, Description := r.Description,
    Amount := to_float r.AmountRaw * (r.AmountSign : ℚ),
    Balance := to_float r.BalanceRaw,
    Year := digitsVal (r.Date.data.drop (r.Date.data.length - 4)),
    Month := digitsVal ((r.Date.data.drop 3).take 2) }

/-- Model of `parse_single_pdf`: fold the page step over the document's pages with a
fresh per-document state, then post-process every emitted row. -/
def parse_single_pdf (fname : String) (pages : List Page) : List Row :=
  let res := pages.foldl
    (fun (acc : List Row0 × DocState) pg =>
      let pr := parsePage fname acc.2 pg
      (acc.1 ++ pr.1, pr.2))
    ([], ⟨false, none⟩)
  res.1.map finalizeRow

/-! ### Multi-document merge (`build_all_transactions`) -/

/-- Days of a month in the proleptic Gregorian calendar. -/
def monthLen (y m : ℕ) : ℕ :=
  if m = 2 then (if y % 4 = 0 ∧ (y % 100 ≠ 0 ∨ y % 400 = 0) then 29 else 28)
  else if m = 4 ∨ m = 6 ∨ m = 9 ∨ m = 11 then 30 else 31

/-- Model of `pd.to_datetime(s, format="%d.%m.%Y", errors="coerce")`, encoded as
`y*10000 + m*100 + d`: `none` (`NaT`) unless the string is a full
`dd.mm.yyyy` calendar date inside the representable `pd.Timestamp` range
(midnights from 1677-09-22 to 2262-04-11). -/
def dateCode (s : String) : Option ℕ :=
  match s.data with
  | [d1, d2, '.', m1, m2, '.', y1, y2, y3, y4] =>
    if [d1, d2, m1, m2, y1, y2, y3, y4].all isDig then
      let d := digitsVal [d1, d2]
      let m := digitsVal [m1, m2]
      let y := digitsVal [y1, y2, y3, y4]
      if 1 ≤ m ∧ m ≤ 12 ∧ 1 ≤ d ∧ d ≤ monthLen y m ∧
          16770922 ≤ y * 10000 + m * 100 + d ∧
          y * 10000 + m * 100 + d ≤ 22620411 then
        some (y * 10000 + m * 100 + d)
      else none
    else none
  | _ => none

/-- The `DateISO` sort key of a row; `NaT` (an unparseable date) is encoded
as a sentinel larger than every date code, because `sort_values` places
missing values last. -/
def dateN (r : Row) : ℕ := (dateCode r.Date).getD 100000000

/-- The (total, reflexive) ordering `sort_values(["DateISO",
"TransactionID"])` sorts by: date key first, then the transaction id
string (pandas compares `object` id columns as Python strings, i.e.
lexicographically). -/
def ledgerLe (a b : Row) : Prop :=
  dateN a < dateN b ∨ (dateN a = dateN b ∧ a.TransactionID ≤ b.TransactionID)

/-- Strict version of `ledgerLe`. -/
def ledgerLt (a b : Row) : Prop :=
  dateN a < dateN b ∨ (dateN a = dateN b ∧ a.TransactionID < b.TransactionID)

instance : DecidableRel ledgerLe := fun a b => by
  unfold ledgerLe; infer_instance

instance : DecidableRel ledgerLt := fun a b => by
  unfold ledgerLt; infer_instance

instance : IsTotal Row ledgerLe where
  total a b := by
    unfold ledgerLe
    rcases Nat.lt_trichotomy (dateN a) (dateN b) with h | h | h
    · exact Or.inl (Or.inl h)
    · rcases le_total a.TransactionID b.TransactionID with h2 | h2
      · exact Or.inl (Or.inr ⟨h, h2⟩)
      · exact Or.inr (Or.inr ⟨h.symm, h2⟩)
    · exact Or.inr (Or.inl h)

instance : IsTrans Row ledgerLe where
  trans a b c hab hbc := by
    unfold ledgerLe at *
    rcases hab with h1 | ⟨e1, s1⟩ <;> rcases hbc with h2 | ⟨e2, s2⟩
    · exact Or.inl (h1.trans h2)
    · exact Or.inl (e2 ▸ h1)
    · exact Or.inl (e1 ▸ h2)
    · exact Or.inr ⟨e1.trans e2, s1.trans s2⟩

/-- Model of `df_all.sort_values(["DateISO", "TransactionID"])`: any comparison sort
by the key; with unique transaction ids the key is strict, so every correct
sort of the same rows produces this list. -/
def sortLedger (l : List Row) : List Row := List.insertionSort ledgerLe l

/-- Model of `df_all.drop_duplicates(subset=["TransactionID"], keep="last")`: keep a
row exactly when no later row carries the same transaction id (kept rows
stay in their original relative order, as in pandas). -/
def dedupLast : List Row → List Row
  | [] => []
  | r :: rs =>
    if rs.any (fun x => x.TransactionID == r.TransactionID) then dedupLast rs
    else r :: dedupLast rs

/-- Lines 244-256 of the source: concatenate the previously persisted
ledger with the newly parsed rows, deduplicate by transaction id keeping
the last occurrence, and sort by `(DateISO, TransactionID)`. -/
def mergeLedger (existing newRows : List Row) : List Row :=
  sortLedger (dedupLast (existing ++ newRows))

/-- Model of `build_all_transactions`: parse every document, and unless nothing was
found, merge with the previously persisted ledger (`none` when the output
spreadsheet does not exist yet).  The source's column-alignment loop only
pads the two frames to a common rectangular schema and is the identity in
this typed model. -/
def build_all_transactions (existing : Option (List Row))
    (docs : List (String × List Page)) : List Row :=
  if docs.isEmpty then []
  else
    let dfNew := (docs.map (fun d => parse_single_pdf d.1 d.2)).flatten
    if dfNew.isEmpty then []
    else mergeLedger (existing.getD []) dfNew

/-- The last row of `l` carrying transaction id `a`, if any
(what `keep="last"` retains for that id). -/
def lastById (l : List Row) (a : String) : Option Row :=
  l.reverse.find? (fun r => r.TransactionID == a)

/-! ### Helper lemmas about the single-document parser -/

theorem mkRow_sign (f : String) (w : List WordBox) (p : Option ℚ) (g : TxG)
    (e : List String) :
    (mkRow f w p g e).1.AmountSign = 1 ∨ (mkRow f w p g e).1.AmountSign = -1 := by
  unfold mkRow
  dsimp only
  split <;> simp

theorem scanLines_rows_from_mkRow (f : String) (w : List WordBox) :
    ∀ (ls : List String) (prev : Option ℚ) (r0 : Row0),
      r0 ∈ (scanLines f w ls prev).1 →
      ∃ p g e, r0 = (mkRow f w p g e).1 := by
  intro ls prev
  induction ls, prev using scanLines.induct f w with
  | case1 prev => intro r0 h; simp [scanLines] at h
  | case2 l rest prev hg ih =>
    intro r0 h
    rw [scanLines] at h
    simp only [hg] at h
    exact ih r0 h
  | case3 l rest prev g hg ce rb ih =>
    intro r0 h
    rw [scanLines] at h
    simp only [hg, List.mem_cons] at h
    rcases h with h | h
    · exact ⟨prev, g, (collectExtras rest).1, h⟩
    · exact ih r0 h

theorem parse_rows_from_mkRow (f : String) (pages : List Page) (r : Row)
    (h : r ∈ parse_single_pdf f pages) :
    ∃ w p g e, r = finalizeRow (mkRow f w p g e).1 := by
  unfold parse_single_pdf at h
  rw [List.mem_map] at h
  obtain ⟨r0, hr0, rfl⟩ := h
  suffices hs : ∀ (acc : List Row0 × DocState),
      r0 ∈ (pages.foldl
        (fun (acc : List Row0 × DocState) pg =>
          let pr := parsePage f acc.2 pg
          (acc.1 ++ pr.1, pr.2)) acc).1 →
      r0 ∈ acc.1 ∨ ∃ w p g e, r0 = (mkRow f w p g e).1 by
    rcases hs ([], ⟨false, none⟩) hr0 with h | ⟨w, p, g, e, rfl⟩
    · simp at h
    · exact ⟨w, p, g, e, rfl⟩
  clear hr0
  induction pages with
  | nil => intro acc h; exact Or.inl h
  | cons pg pages ih =>
    intro acc h
    rcases ih _ h with h2 | h2
    · simp only [List.mem_append] at h2
      rcases h2 with h2 | h2
      · exact Or.inl h2
      · refine Or.inr ?_
        unfold parsePage at h2
        obtain ⟨p, g, e, rfl⟩ :=
          scanLines_rows_from_mkRow f pg.words pg.lines _ _ h2
        exact ⟨pg.words, p, g, e, rfl⟩
    · exact Or.inr h2

/-- Claim C2: every record emitted for a single document has sign exactly
`+1` or `-1`, and its amount equals the parsed amount magnitude
(`to_float(AmountRaw)`) times the sign, exactly. -/
theorem sign_and_amount_invariant (fname : String) (pages : List Page)
    (r : Row) (h : r ∈ parse_single_pdf fname pages) :
    (r.AmountSign = 1 ∨ r.AmountSign = -1) ∧
    r.Amount = to_float r.AmountRaw * (r.AmountSign : ℚ) := by
  obtain ⟨w, p, g, e, rfl⟩ := parse_rows_from_mkRow fname pages r h
  constructor
  · have := mkRow_sign fname w p g e
    simpa [finalizeRow] using this
  · rfl

/-- Claim C10: when a matched line populates both the optional credit and
debit fields, the credit field becomes the amount magnitude with provisional
sign `+1`, and the debit value never influences the emitted row. -/
theorem credit_wins_debit_ignored (fname : String) (w : List WordBox)
    (p : Option ℚ) (g : TxG) (e : List String) (c : String) (b : Option String)
    (hc : g.dobro = some c) :
    amountAndSign g = (c, 1) ∧
    mkRow fname w p { g with breme := b } e = mkRow fname w p g e := by
  have ha : amountAndSign g = (c, 1) := by unfold amountAndSign; rw [hc]
  have ha2 : amountAndSign { g with breme := b } = (c, 1) := by
    unfold amountAndSign; dsimp only; rw [hc]
  refine ⟨ha, ?_⟩
  unfold mkRow signedAmount usedSign
  dsimp only
  rw [ha, ha2]

/-- The matched groups of a line carrying both a credit and a debit field:
`01.01.2025 1234567890 A 1,00 2,00 3,00 tight`. -/
def gBothFields : TxG :=
  ⟨"01.01.2025", "1234567890", "A", some "1,00", some "2,00", "3,00", "tight"⟩

/-- Witness for C10 at a concrete both-fields line. -/
theorem credit_wins_debit_ignored_witness :
    txMatch "01.01.2025 1234567890 A 1,00 2,00 3,00 tight" = some gBothFields ∧
    amountAndSign gBothFields = ("1,00", 1) := by
  refine ⟨by decide, ?_⟩
  exact (credit_wins_debit_ignored "f" [] none gBothFields [] "1,00" none
    rfl).1

/-- Claim C9: the continuation-absorption loop never appends a lone `"/"`
separator line (after stripping) to the collected description lines. -/
theorem slash_separator_discarded (lines : List String) :
    ((collectExtras lines).1.all (fun s => s != "/")) = true := by
  induction lines with
  | nil => rfl
  | cons l rest ih =>
    simp only [collectExtras]
    split
    · exact ih
    · split
      · rfl
      · split
        · rfl
        · split
          · exact ih
          · next hslash =>
            simp only [List.all_cons, Bool.and_eq_true]
            exact ⟨by simpa using hslash, ih⟩

/-- The matched groups of the C6 counterexample line
`01.01.2025 1234567890 X  100,00 d` (two spaces after the reference token:
the single decimal is the balance, so both optional fields are empty). -/
def gBothEmpty : TxG :=
  ⟨"01.01.2025", "1234567890", "X", none, none, "100,00", "d"⟩

/-- Counterexample to claim C6 as stated: a grammar-matching line with both
the credit and the debit field absent is reachable, the layout resolver
returns `none` on it (no words at all), yet the provisional sign used is
`+1`, not the `-1` the claim requires for an absent credit field. -/
theorem fallback_sign_claim_cex :
    txMatch "01.01.2025 1234567890 X  100,00 d" = some gBothEmpty ∧
    determine_amount_sign_from_layout [] gBothEmpty.txid
      (amountAndSign gBothEmpty).1 gBothEmpty.balance = none ∧
    usedSign [] gBothEmpty = 1 ∧
    ¬(usedSign [] gBothEmpty = -1) := by
  refine ⟨by decide, by decide, by decide, by decide⟩

/-- Claim C6 as amended: when the layout resolver yields no evidence, the
sign used is `+1` when the credit field is present, `-1` when only the debit
field is present, and `+1` (with magnitude `"0,00"`) when both are absent. -/
theorem fallback_sign_amended (w : List WordBox) (g : TxG)
    (h : determine_amount_sign_from_layout w g.txid (amountAndSign g).1
        g.balance = none) :
    usedSign w g =
      if g.dobro.isSome then 1 else if g.breme.isSome then -1 else 1 := by
  unfold usedSign
  rw [h]
  unfold amountAndSign
  cases hd : g.dobro <;> cases hb : g.breme <;> simp [hd, hb]

/-- Witness for the amended C6 at the counterexample line. -/
theorem fallback_sign_amended_witness :
    determine_amount_sign_from_layout [] gBothEmpty.txid
        (amountAndSign gBothEmpty).1 gBothEmpty.balance = none ∧
    usedSign [] gBothEmpty = 1 := by
  refine ⟨by decide, ?_⟩
  have h := fallback_sign_amended [] gBothEmpty (by decide)
  simpa [gBothEmpty] using h

/-! ### Evaluation helpers

`scanLines` is defined by well-founded recursion (the scan can jump forward
past absorbed lines), so concrete runs are evaluated through its unfolding
lemmas; `to_float` values are obtained from the decidable string stage
`parseDec`. -/

theorem to_float_of_parse (s : String) (b : Bool) (i fv fl : ℕ)
    (h : parseDec s = (b, i, fv, fl)) :
    to_float s =
      if b then -((i : ℚ) + (fv : ℚ) / 10 ^ fl)
      else (i : ℚ) + (fv : ℚ) / 10 ^ fl := by
  unfold to_float ofParsedDec
  rw [h]

theorem scanLines_nil (f : String) (w : List WordBox) (p : Option ℚ) :
    scanLines f w [] p = ([], p) := by
  rw [scanLines]

theorem scanLines_cons_of_none (f : String) (w : List WordBox) (l : String)
    (rest : List String) (p : Option ℚ) (h : txMatch l = none) :
    scanLines f w (l :: rest) p = scanLines f w rest p := by
  rw [scanLines, h]

theorem scanLines_cons_of_some (f : String) (w : List WordBox) (l : String)
    (rest : List String) (p : Option ℚ) (g : TxG) (h : txMatch l = some g) :
    scanLines f w (l :: rest) p =
      ((mkRow f w p g (collectExtras rest).1).1 ::
         (scanLines f w (collectExtras rest).2
           (some (mkRow f w p g (collectExtras rest).1).2)).1,
       (scanLines f w (collectExtras rest).2
         (some (mkRow f w p g (collectExtras rest).1).2)).2) := by
  rw [scanLines, h]

theorem parsePage_no_start (f : String) (st : DocState) (pg : Page)
    (h : pg.lines.findSome?
      (fun c => (startBalanceMatch (strip c)).map to_float) = none) :
    parsePage f st pg =
      ((scanLines f pg.words pg.lines st.previous_balance).1,
       ⟨st.start_balance_set,
        (scanLines f pg.words pg.lines st.previous_balance).2⟩) := by
  unfold parsePage
  rw [h]
  split <;> rfl

theorem parse_single_pdf_one (f : String) (pg : Page) :
    parse_single_pdf f [pg] =
      ((parsePage f ⟨false, none⟩ pg).1).map finalizeRow := by
  unfold parse_single_pdf
  simp

theorem mkRow_bal (f : String) (w : List WordBox) (p : Option ℚ) (g : TxG)
    (e : List String) : (mkRow f w p g e).2 = to_float g.balance := rfl

theorem mkRow_txid (f : String) (w : List WordBox) (p : Option ℚ) (g : TxG)
    (e : List String) : (mkRow f w p g e).1.TransactionID = g.txid := rfl

theorem mkRow_amountRaw (f : String) (w : List WordBox) (p : Option ℚ)
    (g : TxG) (e : List String) :
    (mkRow f w p g e).1.AmountRaw = (amountAndSign g).1 := rfl

theorem mkRow_amountSign (f : String) (w : List WordBox) (p : Option ℚ)
    (g : TxG) (e : List String) :
    (mkRow f w p g e).1.AmountSign
      = if 0 ≤ signedAmount w p g then 1 else -1 := rfl

theorem finalizeRow_amount (r : Row0) :
    (finalizeRow r).Amount = to_float r.AmountRaw * (r.AmountSign : ℚ) := rfl

theorem finalizeRow_txid (r : Row0) :
    (finalizeRow r).TransactionID = r.TransactionID := rfl

/-! ### Balance reconciliation (claim C1) -/

/-- The C1 counterexample page: the first transaction (no credit/debit
field) seeds the previous balance with `100,00`; the second has credit
`208,54` but balance `308,53`, so the rounded balance delta is `208,53` —
inside the `0.01` tolerance but not equal to the magnitude. -/
def cexReconPage : Page :=
  { lines := ["01.01.2025 1111111111 A  100,00 x",
              "02.01.2025 2222222222 B 208,54  308,53 y"],
    words := [] }

/-- Matched groups of the first line of `cexReconPage`. -/
def gSeed : TxG :=
  ⟨"01.01.2025", "1111111111", "A", none, none, "100,00", "x"⟩

/-- Matched groups of the second line of `cexReconPage`. -/
def gRecon : TxG :=
  ⟨"02.01.2025", "2222222222", "B", some "208,54", none, "308,53", "y"⟩

theorem to_float_100 : to_float "100,00" = 100 := by
  rw [to_float_of_parse "100,00" false 100 0 2 (by decide)]
  norm_num

theorem to_float_20854 : to_float "208,54" = 20854/100 := by
  rw [to_float_of_parse "208,54" false 208 54 2 (by decide)]
  norm_num

theorem to_float_30853 : to_float "308,53" = 30853/100 := by
  rw [to_float_of_parse "308,53" false 308 53 2 (by decide)]
  norm_num

theorem to_float_zero : to_float "0,00" = 0 := by
  rw [to_float_of_parse "0,00" false 0 0 2 (by decide)]
  norm_num

theorem round2_recon : round2 ((30853 : ℚ)/100 - 100) = 20853/100 := by
  have h1 : ((30853 : ℚ)/100 - 100) * 100 = 20853 := by norm_num
  unfold round2 roundHalfEven
  rw [h1]
  norm_num

theorem recon_within_tolerance :
    |(|(20853 : ℚ)/100| - 20854/100)| ≤ 1/100 := by
  rw [abs_of_nonneg (by norm_num : (0:ℚ) ≤ 20853/100)]
  rw [show (20853 : ℚ)/100 - 20854/100 = -(1/100) by norm_num, abs_neg,
    abs_of_nonneg (by norm_num : (0:ℚ) ≤ 1/100)]

theorem signedAmount_seed : signedAmount [] none gSeed = 0 := by
  unfold signedAmount
  have h : usedSign [] gSeed = 1 := by decide
  rw [h]
  dsimp only
  rw [show (amountAndSign gSeed).1 = "0,00" from rfl, to_float_zero]
  norm_num

theorem signedAmount_recon :
    signedAmount [] (some 100) gRecon = 20853/100 := by
  unfold signedAmount
  dsimp only
  rw [show gRecon.balance = "308,53" from rfl,
    show (amountAndSign gRecon).1 = "208,54" from rfl,
    to_float_30853, to_float_20854, round2_recon]
  rw [if_pos recon_within_tolerance]

/-- Counterexample to claim C1 as stated: at the second transaction of
`cexReconPage` the previous balance is `100` and the rounded delta
`Δ = 208,53` matches the magnitude `208,54` within `0.01`, yet the amount
in the emitted record is `208,54` (the magnitude times Δ's sign), not `Δ`
itself: the `Amount` column is recomputed as `AmountRaw × AmountSign`
(line 201) and only Δ's sign survives. -/
theorem reconciliation_adopts_delta_cex :
    (parse_single_pdf "f.pdf" [cexReconPage]).map
        (fun r => (r.TransactionID, r.Amount))
      = [("1111111111", 0), ("2222222222", 20854/100)] ∧
    round2 (to_float "308,53" - to_float "100,00") = 20853/100 ∧
    |(|(20853 : ℚ)/100| - to_float "208,54")| ≤ 1/100 ∧
    ¬((20854 : ℚ)/100 = 20853/100) := by
  have hm1 : txMatch "01.01.2025 1111111111 A  100,00 x" = some gSeed := by
    decide
  have hm2 : txMatch "02.01.2025 2222222222 B 208,54  308,53 y"
      = some gRecon := by decide
  have hsb : cexReconPage.lines.findSome?
      (fun c => (startBalanceMatch (strip c)).map to_float) = none := by
    decide
  have hce : collectExtras ["02.01.2025 2222222222 B 208,54  308,53 y"]
      = ([], ["02.01.2025 2222222222 B 208,54  308,53 y"]) := by decide
  refine ⟨?_, ?_, ?_, ?_⟩
  · rw [parse_single_pdf_one, parsePage_no_start _ _ _ hsb]
    show ((scanLines "f.pdf" [] cexReconPage.lines none).1.map
      finalizeRow).map _ = _
    rw [show cexReconPage.lines
        = ["01.01.2025 1111111111 A  100,00 x",
           "02.01.2025 2222222222 B 208,54  308,53 y"] from rfl]
    rw [scanLines_cons_of_some _ _ _ _ _ _ hm1, hce]
    dsimp only
    rw [mkRow_bal, show gSeed.balance = "100,00" from rfl, to_float_100,
      scanLines_cons_of_some _ _ _ _ _ _ hm2]
    rw [show collectExtras ([] : List String) = ([], []) from rfl]
    dsimp only
    rw [scanLines_nil]
    dsimp only [List.map_cons, List.map_nil]
    rw [finalizeRow_amount, finalizeRow_amount, finalizeRow_txid,
      finalizeRow_txid, mkRow_txid, mkRow_txid, mkRow_amountRaw,
      mkRow_amountRaw, mkRow_amountSign, mkRow_amountSign,
      signedAmount_seed, signedAmount_recon]
    rw [show (amountAndSign gSeed).1 = "0,00" from rfl,
      show (amountAndSign gRecon).1 = "208,54" from rfl,
      to_float_zero, to_float_20854,
      show gSeed.txid = "1111111111" from rfl,
      show gRecon.txid = "2222222222" from rfl]
    rw [if_pos (by norm_num : (0:ℚ) ≤ 0),
      if_pos (by norm_num : (0:ℚ) ≤ 20853/100)]
    norm_num
  · rw [to_float_30853, to_float_100, round2_recon]
  · rw [to_float_20854]
    exact recon_within_tolerance
  · norm_num

theorem usedSign_mem (w : List WordBox) (g : TxG) :
    usedSign w g = 1 ∨ usedSign w g = -1 := by
  unfold usedSign
  cases hL : determine_amount_sign_from_layout w g.txid (amountAndSign g).1
      g.balance with
  | none =>
    unfold amountAndSign
    cases g.dobro
    · cases g.breme <;> simp
    · simp
  | some s =>
    unfold determine_amount_sign_from_layout at hL
    dsimp only at hL
    split at hL
    · exact absurd hL (by simp)
    · split at hL
      · exact absurd hL (by simp)
      · split at hL
        · exact absurd hL (by simp)
        · rw [Option.map_eq_some'] at hL
          obtain ⟨c, _, hc⟩ := hL
          dsimp only
          rw [← hc]
          split <;> simp

theorem finalizeRow_sign (r : Row0) :
    (finalizeRow r).AmountSign = r.AmountSign := rfl

/-- Claim C1 as amended: when a previous balance `p` exists and the rounded
delta `Δ = round2(balance - p)` matches the amount magnitude within `0.01`,
the emitted record adopts Δ's sign: its amount is the magnitude times
`(+1 if Δ ≥ 0 else -1)` — equal to Δ itself only when `|Δ|` equals the
magnitude exactly — and its sign field is that sign; otherwise (no previous
balance, or the delta check fails) the provisionally signed amount
`magnitude × usedSign` is kept (stated for the non-negative magnitudes every
matched amount token has). -/
theorem reconciliation_amended (fname : String) (w : List WordBox) (g : TxG)
    (e : List String) :
    (∀ p : ℚ,
      |(|round2 (to_float g.balance - p)| - to_float (amountAndSign g).1)|
          ≤ 1/100 →
      (finalizeRow (mkRow fname w (some p) g e).1).Amount
          = to_float (amountAndSign g).1 *
            (if 0 ≤ round2 (to_float g.balance - p) then 1 else -1) ∧
      (finalizeRow (mkRow fname w (some p) g e).1).AmountSign
          = (if 0 ≤ round2 (to_float g.balance - p) then 1 else -1)) ∧
    (0 ≤ to_float (amountAndSign g).1 →
      (∀ p : ℚ,
        ¬(|(|round2 (to_float g.balance - p)| - to_float (amountAndSign g).1)|
            ≤ 1/100) →
        (finalizeRow (mkRow fname w (some p) g e).1).Amount
            = to_float (amountAndSign g).1 * (usedSign w g : ℚ)) ∧
      (finalizeRow (mkRow fname w none g e).1).Amount
          = to_float (amountAndSign g).1 * (usedSign w g : ℚ)) := by
  have hsa : ∀ p, signedAmount w (some p) g =
      if |(|round2 (to_float g.balance - p)| - to_float (amountAndSign g).1)|
          ≤ 1/100
      then round2 (to_float g.balance - p)
      else to_float (amountAndSign g).1 * (usedSign w g : ℚ) := by
    intro p
    rfl
  have hkeep : ∀ q : ℚ, 0 ≤ q → ∀ s : ℤ, s = 1 ∨ s = -1 →
      q * (((if (0:ℚ) ≤ q * (s : ℚ) then (1:ℤ) else -1) : ℤ) : ℚ)
        = q * (s : ℚ) := by
    intro q hq s hs
    by_cases hc : (0:ℚ) ≤ q * (s : ℚ)
    · rw [if_pos hc]
      rcases hs with rfl | rfl
      · norm_num
      · push_cast at hc ⊢
        have hq0 : q = 0 := le_antisymm (by linarith) hq
        rw [hq0]
        ring
    · rw [if_neg hc]
      rcases hs with rfl | rfl
      · exfalso
        apply hc
        push_cast
        simpa using hq
      · push_cast
        ring
  constructor
  · intro p hcond
    have hSraw : (finalizeRow (mkRow fname w (some p) g e).1).AmountSign
        = (if 0 ≤ round2 (to_float g.balance - p) then (1:ℤ) else -1) := by
      rw [finalizeRow_sign, mkRow_amountSign, hsa p, if_pos hcond]
    have hAraw : (finalizeRow (mkRow fname w (some p) g e).1).Amount
        = to_float (amountAndSign g).1 *
          (((if 0 ≤ round2 (to_float g.balance - p) then (1:ℤ) else -1) : ℤ)
            : ℚ) := by
      rw [finalizeRow_amount, mkRow_amountRaw, mkRow_amountSign, hsa p,
        if_pos hcond]
    refine ⟨?_, hSraw⟩
    rw [hAraw]
    rcases le_or_lt 0 (round2 (to_float g.balance - p)) with hd | hd
    · rw [if_pos hd, if_pos hd]
      norm_num
    · rw [if_neg (not_le.mpr hd), if_neg (not_le.mpr hd)]
      norm_num
  · intro hmag
    constructor
    · intro p hcond
      have hs : signedAmount w (some p) g
          = to_float (amountAndSign g).1 * (usedSign w g : ℚ) := by
        rw [hsa p, if_neg hcond]
      rw [finalizeRow_amount, mkRow_amountRaw, mkRow_amountSign, hs]
      exact hkeep _ hmag _ (usedSign_mem w g)
    · rw [finalizeRow_amount, mkRow_amountRaw]
      rw [show (mkRow fname w none g e).1.AmountSign
        = if 0 ≤ to_float (amountAndSign g).1 * (usedSign w g : ℚ) then 1
          else -1 from rfl]
      exact hkeep _ hmag _ (usedSign_mem w g)

/-- Witness for the amended C1: the adopt-Δ branch at the counterexample
transaction. -/
theorem reconciliation_amended_witness :
    |(|round2 (to_float gRecon.balance - 100)| -
        to_float (amountAndSign gRecon).1)| ≤ 1/100 ∧
    (finalizeRow (mkRow "f.pdf" [] (some 100) gRecon []).1).Amount
      = to_float (amountAndSign gRecon).1 *
        (if 0 ≤ round2 (to_float gRecon.balance - 100) then 1 else -1) := by
  have hc : |(|round2 (to_float gRecon.balance - 100)| -
      to_float (amountAndSign gRecon).1)| ≤ 1/100 := by
    rw [show gRecon.balance = "308,53" from rfl,
      show (amountAndSign gRecon).1 = "208,54" from rfl,
      to_float_30853, to_float_20854, round2_recon]
    exact recon_within_tolerance
  exact ⟨hc, ((reconciliation_amended "f.pdf" [] gRecon []).1 100 hc).1⟩

/-! ### Witness machinery for claim C2 -/

/-- A one-transaction page (the credit example from the source's comment). -/
def wPagePriliv : Page :=
  { lines := ["11.07.2025 2100901623 SI 915,56  660,91 PRILIV"], words := [] }

/-- Matched groups of the only line of `wPagePriliv`. -/
def gPriliv : TxG :=
  ⟨"11.07.2025", "2100901623", "SI", some "915,56", none, "660,91", "PRILIV"⟩

/-- Witness for C2 at a concrete one-transaction document. -/
theorem sign_and_amount_invariant_witness :
    (finalizeRow (mkRow "w.pdf" [] none gPriliv []).1
        ∈ parse_single_pdf "w.pdf" [wPagePriliv]) ∧
    ((finalizeRow (mkRow "w.pdf" [] none gPriliv []).1).AmountSign = 1 ∨
      (finalizeRow (mkRow "w.pdf" [] none gPriliv []).1).AmountSign = -1) ∧
    (finalizeRow (mkRow "w.pdf" [] none gPriliv []).1).Amount
      = to_float (finalizeRow (mkRow "w.pdf" [] none gPriliv []).1).AmountRaw
        * ((finalizeRow (mkRow "w.pdf" [] none gPriliv []).1).AmountSign : ℚ)
    := by
  have hm : txMatch "11.07.2025 2100901623 SI 915,56  660,91 PRILIV"
      = some gPriliv := by decide
  have hsb : wPagePriliv.lines.findSome?
      (fun c => (startBalanceMatch (strip c)).map to_float) = none := by decide
  have hmem : finalizeRow (mkRow "w.pdf" [] none gPriliv []).1
      ∈ parse_single_pdf "w.pdf" [wPagePriliv] := by
    rw [parse_single_pdf_one, parsePage_no_start _ _ _ hsb]
    show _ ∈ ((scanLines "w.pdf" [] wPagePriliv.lines none).1).map finalizeRow
    rw [show wPagePriliv.lines
        = ["11.07.2025 2100901623 SI 915,56  660,91 PRILIV"] from rfl,
      scanLines_cons_of_some _ _ _ _ _ _ hm,
      show collectExtras ([] : List String) = ([], []) from rfl]
    dsimp only
    rw [scanLines_nil]
    simp
  exact ⟨hmem, sign_and_amount_invariant "w.pdf" [wPagePriliv] _ hmem⟩

/-! ### Layout sign resolver (claim C5) -/

theorem find?_filter_conj (l : List α) (p q : α → Bool) :
    (l.filter q).find? p = l.find? (fun x => p x && q x) := by
  induction l with
  | nil => rfl
  | cons x t ih =>
    by_cases hq : q x
    · rw [List.filter_cons_of_pos hq]
      by_cases hp : p x
      · rw [List.find?_cons_of_pos _ hp,
          List.find?_cons_of_pos _ (by simp [hp, hq])]
      · rw [List.find?_cons_of_neg _ (by simp [hp]),
          List.find?_cons_of_neg _ (by simp [hp]), ih]
    · rw [List.filter_cons_of_neg hq,
        List.find?_cons_of_neg _ (by simp [hq]), ih]

theorem find?_ext (l : List α) (p q : α → Bool) (h : ∀ x, p x = q x) :
    l.find? p = l.find? q := by
  induction l with
  | nil => rfl
  | cons a t ih => rw [List.find?_cons, List.find?_cons, h a, ih]

/-- Claim C5: the layout sign resolver agrees everywhere with the
specification-level description `layoutSignClaim` — it considers only the
decimal-looking words of the id token's row (vertical distance at most 1.0)
lying strictly left of the balance token's position, classifies the leftmost
one equal to the amount token by the fixed column boundary (`-1` left of it,
`+1` otherwise), and returns `none` when the word list is empty or the row
cannot be reconstructed. -/
theorem layout_resolver_matches_claim (words : List WordBox)
    (txid amount_str balance_str : String) :
    determine_amount_sign_from_layout words txid amount_str balance_str
      = layoutSignClaim words txid amount_str balance_str := by
  unfold determine_amount_sign_from_layout layoutSignClaim
  by_cases hW : words.isEmpty
  · have hnil : words = [] := by
      cases words
      · rfl
      · simp at hW
    subst hnil
    rfl
  · rw [if_neg hW]
    cases hF : words.find? (fun w => w.text == txid) with
    | none => rfl
    | some w0 =>
      dsimp only
      by_cases hE : ((words.filter
          (fun c => decide (|c.top - w0.top| ≤ ROW_Y_TOLERANCE))).filter
            (fun c => amountFieldFull c.text)).isEmpty
      · rw [if_pos hE]
        have hnil : (words.filter
            (fun c => decide (|c.top - w0.top| ≤ ROW_Y_TOLERANCE))).filter
              (fun c => amountFieldFull c.text) = [] := by
          cases h : (words.filter
              (fun c => decide (|c.top - w0.top| ≤ ROW_Y_TOLERANCE))).filter
                (fun c => amountFieldFull c.text)
          · rfl
          · rw [h] at hE
            simp at hE
        rw [hnil, List.mergeSort_nil]
        rfl
      · rw [if_neg hE]
        conv_rhs => rw [find?_filter_conj]
        refine congrArg _ (find?_ext _ _ _ ?_)
        intro c
        cases hbx : ((words.filter
            (fun c => decide (|c.top - w0.top| ≤ ROW_Y_TOLERANCE))).find?
              (fun c => c.text == balance_str)).map (fun c => c.x0) with
        | none => simp
        | some bx =>
          dsimp only
          by_cases hx : bx ≤ c.x0
          · simp [hx, not_lt.mpr hx]
          · simp [hx, not_le.mp hx]

/-! ### Lemmas about deduplication and sorting -/

theorem dedupLast_sublist (l : List Row) : (dedupLast l).Sublist l := by
  induction l with
  | nil => simp [dedupLast]
  | cons r rs ih =>
    rw [dedupLast]
    split
    · exact ih.cons r
    · exact ih.cons₂ r

theorem dedupLast_ids_nodup (l : List Row) :
    ((dedupLast l).map Row.TransactionID).Nodup := by
  induction l with
  | nil => simp [dedupLast]
  | cons r rs ih =>
    rw [dedupLast]
    split
    · exact ih
    · next hany =>
      simp only [List.map_cons, List.nodup_cons]
      refine ⟨?_, ih⟩
      intro hmem
      rw [List.mem_map] at hmem
      obtain ⟨x, hx, hid⟩ := hmem
      exact hany (by
        rw [List.any_eq_true]
        exact ⟨x, (dedupLast_sublist rs).subset hx, by simp [hid]⟩)

theorem lastById_append (l1 l2 : List Row) (a : String) :
    lastById (l1 ++ l2) a
      = match lastById l2 a with
        | some r => some r
        | none => lastById l1 a := by
  unfold lastById
  rw [List.reverse_append, List.find?_append]
  cases h : l2.reverse.find? (fun r => r.TransactionID == a) <;>
    simp [h, Option.orElse]

theorem lastById_eq_none (l : List Row) (a : String) :
    lastById l a = none ↔ ∀ x ∈ l, ¬(x.TransactionID = a) := by
  unfold lastById
  rw [List.find?_eq_none]
  constructor
  · intro h x hx
    simpa using h x (by simpa using hx)
  · intro h x hx
    simpa using h x (by simpa using hx)

theorem lastById_single (r : Row) (a : String) :
    lastById [r] a = if r.TransactionID == a then some r else none := by
  unfold lastById
  cases h : r.TransactionID == a <;> simp [List.find?, h]

theorem mem_dedupLast (l : List Row) (r : Row) :
    r ∈ dedupLast l ↔ lastById l r.TransactionID = some r := by
  induction l with
  | nil => simp [dedupLast, lastById]
  | cons a rs ih =>
    have hstep : lastById (a :: rs) r.TransactionID
        = match lastById rs r.TransactionID with
          | some x => some x
          | none =>
            if a.TransactionID == r.TransactionID then some a else none := by
      rw [show a :: rs = [a] ++ rs from rfl, lastById_append]
      cases lastById rs r.TransactionID <;> simp [lastById_single]
    rw [dedupLast]
    split
    · next hany =>
      rw [ih, hstep]
      cases hL : lastById rs r.TransactionID with
      | some x => simp
      | none =>
        constructor
        · intro h
          cases h
        · intro h
          dsimp only at h
          split at h
          · next hid =>
            exfalso
            rw [Option.some_inj] at h
            subst h
            rw [List.any_eq_true] at hany
            obtain ⟨x, hx, hxid⟩ := hany
            rw [lastById_eq_none] at hL
            refine hL x hx ?_
            rw [beq_iff_eq] at hxid hid
            rw [hxid, hid]
          · cases h
    · next hany =>
      have hnone : lastById rs a.TransactionID = none := by
        rw [lastById_eq_none]
        intro x hx hid
        exact hany (by
          rw [List.any_eq_true]
          exact ⟨x, hx, by simp [hid]⟩)
      rw [List.mem_cons, ih, hstep]
      constructor
      · rintro (rfl | hm)
        · rw [hnone]
          simp
        · rw [hm]
      · intro h
        cases hL : lastById rs r.TransactionID with
        | some x =>
          rw [hL] at h
          dsimp only at h
          right
          exact h
        | none =>
          rw [hL] at h
          dsimp only at h
          split at h
          · left
            exact (Option.some_inj.mp h).symm
          · cases h

theorem find?_eq_of_ids_nodup (l : List Row)
    (hn : (l.map Row.TransactionID).Nodup) (r : Row) (hr : r ∈ l) :
    l.find? (fun x => x.TransactionID == r.TransactionID) = some r := by
  induction l with
  | nil => cases hr
  | cons a t ih =>
    simp only [List.map_cons, List.nodup_cons] at hn
    rcases List.mem_cons.mp hr with rfl | hrt
    · rw [List.find?_cons]
      rw [show (r.TransactionID == r.TransactionID) = true by simp]
    · have hne : (a.TransactionID == r.TransactionID) = false := by
        rw [beq_eq_false_iff_ne]
        intro hb
        exact hn.1 (hb ▸ List.mem_map_of_mem _ hrt)
      rw [List.find?_cons]
      rw [hne]
      exact ih hn.2 hrt

theorem lastById_of_ids_nodup (l : List Row)
    (hn : (l.map Row.TransactionID).Nodup) (r : Row) :
    lastById l r.TransactionID = some r ↔ r ∈ l := by
  constructor
  · intro h
    have hm := List.mem_of_find?_eq_some h
    simpa using hm
  · intro hr
    unfold lastById
    refine find?_eq_of_ids_nodup l.reverse ?_ r (by simpa using hr)
    rw [List.map_reverse]
    exact List.nodup_reverse.mpr hn

theorem sortLedger_perm (l : List Row) : (sortLedger l).Perm l :=
  List.perm_insertionSort ledgerLe l

theorem sortLedger_sorted (l : List Row) :
    List.Sorted ledgerLe (sortLedger l) :=
  List.sorted_insertionSort ledgerLe l

instance : IsAntisymm Row ledgerLt where
  antisymm a b h1 h2 := by
    exfalso
    unfold ledgerLt at h1 h2
    rcases h1 with h1 | ⟨e1, s1⟩ <;> rcases h2 with h2 | ⟨e2, s2⟩
    · omega
    · omega
    · omega
    · exact absurd (s1.trans s2) (lt_irrefl _)

theorem pairwise_lt_of_sorted_nodup (l : List Row)
    (hs : List.Sorted ledgerLe l)
    (hn : (l.map Row.TransactionID).Nodup) :
    List.Pairwise ledgerLt l := by
  have hne : List.Pairwise
      (fun a b : Row => a.TransactionID ≠ b.TransactionID) l :=
    List.pairwise_map.mp hn
  refine (hs.and hne).imp ?_
  rintro a b ⟨hle, hab⟩
  unfold ledgerLe at hle
  unfold ledgerLt
  rcases hle with h | ⟨e, s⟩
  · exact Or.inl h
  · exact Or.inr ⟨e, lt_of_le_of_ne s hab⟩

theorem dedupLast_append_perm (m e n : List Row)
    (hm : m.Perm (dedupLast (e ++ n))) :
    (dedupLast (m ++ n)).Perm (dedupLast (e ++ n)) := by
  have hmid : (m.map Row.TransactionID).Nodup :=
    ((hm.map Row.TransactionID).nodup_iff).mpr (dedupLast_ids_nodup (e ++ n))
  rw [List.perm_ext_iff_of_nodup
    ((dedupLast_ids_nodup (m ++ n)).of_map _)
    ((dedupLast_ids_nodup (e ++ n)).of_map _)]
  intro r
  rw [mem_dedupLast, mem_dedupLast, lastById_append, lastById_append]
  cases hN : lastById n r.TransactionID with
  | some x => rfl
  | none =>
    dsimp only
    rw [lastById_of_ids_nodup m hmid r, hm.mem_iff, mem_dedupLast,
      lastById_append, hN]

theorem mergeLedger_idem (e n : List Row) :
    mergeLedger (mergeLedger e n) n = mergeLedger e n := by
  have hperm : (mergeLedger e n).Perm (dedupLast (e ++ n)) :=
    sortLedger_perm _
  have hM_ids : ((mergeLedger e n).map Row.TransactionID).Nodup :=
    ((hperm.map Row.TransactionID).nodup_iff).mpr (dedupLast_ids_nodup (e ++ n))
  have hperm2 : (dedupLast (mergeLedger e n ++ n)).Perm
      (dedupLast (e ++ n)) :=
    dedupLast_append_perm _ e n hperm
  have hLHS_ids : ((mergeLedger (mergeLedger e n) n).map
      Row.TransactionID).Nodup :=
    (((sortLedger_perm _).map Row.TransactionID).nodup_iff).mpr
      (dedupLast_ids_nodup _)
  exact @List.eq_of_perm_of_sorted Row ledgerLt _ _ _
    (((sortLedger_perm _).trans hperm2).trans hperm.symm)
    (pairwise_lt_of_sorted_nodup _ (sortLedger_sorted _) hLHS_ids)
    (pairwise_lt_of_sorted_nodup _ (sortLedger_sorted _) hM_ids)

/-! ### Claim theorems for the multi-document merge -/

/-- Claim C3: in the merged ledger the transaction id is unique, a row
survives exactly when it is the last occurrence of its id in the
concatenation (previously persisted ledger first, then newly parsed rows),
and an id present among the new rows always survives with its last newly
parsed row (a later parse supersedes any earlier or persisted row). -/
theorem dedup_keeps_last (e n : List Row) :
    ((mergeLedger e n).map Row.TransactionID).Nodup ∧
    (∀ r : Row,
      r ∈ mergeLedger e n ↔ lastById (e ++ n) r.TransactionID = some r) ∧
    (∀ (a : String) (r : Row),
      lastById n a = some r → lastById (e ++ n) a = some r) := by
  refine ⟨?_, ?_, ?_⟩
  · exact (((sortLedger_perm _).map Row.TransactionID).nodup_iff).mpr
      (dedupLast_ids_nodup (e ++ n))
  · intro r
    rw [show mergeLedger e n = sortLedger (dedupLast (e ++ n)) from rfl,
      (sortLedger_perm _).mem_iff, mem_dedupLast]
  · intro a r h
    rw [lastById_append, h]

/-- A persisted row with transaction id `"1"`. -/
def rowOld : Row :=
  { SourceFile := "old.pdf", Date := "02.01.2025", TransactionID := "1",
    AccountOrRef := "X", DobroRaw := "", BremeRaw := "", AmountRaw := "1,00",
    AmountSign := 1, BalanceRaw := "1,00", Description := "old",
    Amount := 1, Balance := 1, Year := 2025, Month := 1 }

/-- A newly parsed row with the same transaction id `"1"`. -/
def rowNew : Row :=
  { SourceFile := "new.pdf", Date := "01.01.2025", TransactionID := "1",
    AccountOrRef := "X", DobroRaw := "", BremeRaw := "", AmountRaw := "2,00",
    AmountSign := 1, BalanceRaw := "2,00", Description := "new",
    Amount := 2, Balance := 2, Year := 2025, Month := 1 }

/-- Witness for C3: the newly parsed row supersedes the persisted one. -/
theorem dedup_keeps_last_witness :
    lastById [rowNew] "1" = some rowNew ∧
    lastById ([rowOld] ++ [rowNew]) "1" = some rowNew := by
  refine ⟨by decide, ?_⟩
  exact (dedup_keeps_last [rowOld] [rowNew]).2.2 "1" rowNew (by decide)

/-- Claim C4: the merged ledger is strictly sorted by (parsed date,
transaction id) — a total order on its rows since ids are unique — and it
is the unique such arrangement of its rows: any strictly sorted permutation
is identical, so the same inputs always give the identical ordered output. -/
theorem ledger_sorted_total_unique (e n : List Row) :
    List.Pairwise ledgerLt (mergeLedger e n) ∧
    ((mergeLedger e n).map Row.TransactionID).Nodup ∧
    (∀ l2 : List Row, l2.Perm (mergeLedger e n) →
      List.Pairwise ledgerLt l2 → l2 = mergeLedger e n) := by
  have hids : ((mergeLedger e n).map Row.TransactionID).Nodup :=
    (((sortLedger_perm _).map Row.TransactionID).nodup_iff).mpr
      (dedupLast_ids_nodup (e ++ n))
  have hlt : List.Pairwise ledgerLt (mergeLedger e n) :=
    pairwise_lt_of_sorted_nodup _ (sortLedger_sorted _) hids
  exact ⟨hlt, hids,
    fun l2 hp h2 => @List.eq_of_perm_of_sorted Row ledgerLt _ _ _ hp h2 hlt⟩

/-- Witness for C4: a singleton ledger is its own unique sorted
arrangement. -/
theorem ledger_sorted_total_unique_witness :
    [rowNew] = mergeLedger [] [rowNew] :=
  (ledger_sorted_total_unique [] [rowNew]).2.2 [rowNew] (by decide) (by decide)

/-- Claim C7: re-running the merge with an already-merged ledger as the
previously persisted input and the same parsed documents as the new input
returns a ledger identical to the original merge. -/
theorem merge_rerun_idempotent (existing : Option (List Row))
    (docs : List (String × List Page)) :
    build_all_transactions (some (build_all_transactions existing docs)) docs
      = build_all_transactions existing docs := by
  unfold build_all_transactions
  by_cases hd : docs.isEmpty
  · rw [if_pos hd, if_pos hd]
  · rw [if_neg hd, if_neg hd]
    by_cases hn : ((docs.map (fun d => parse_single_pdf d.1 d.2)).flatten).isEmpty
    · rw [if_pos hn, if_pos hn]
    · rw [if_neg hn, if_neg hn]
      exact mergeLedger_idem _ _

/-! ### Description absorption (claim C8) -/

/-- A line at which the absorption loop stops: its stripped form is
non-blank and either matches the transaction grammar or contains a footer
token. -/
def isBoundaryLine (l : String) : Bool :=
  strip l ≠ "" && ((txMatch (strip l)).isSome || isFooter (strip l))

theorem collectExtras_split (lines : List String) :
    ∃ pre, lines = pre ++ (collectExtras lines).2 ∧
      (∀ x ∈ pre, isBoundaryLine x = false) ∧
      (collectExtras lines).1
        = (pre.map strip).filter (fun s => s != "" && s != "/") := by
  induction lines with
  | nil => exact ⟨[], by simp [collectExtras]⟩
  | cons l rest ih =>
    obtain ⟨pre, hsplit, hnb, hex⟩ := ih
    by_cases h1 : strip l = ""
    · refine ⟨l :: pre, ?_, ?_, ?_⟩
      · rw [collectExtras]
        rw [if_pos h1]
        simpa using hsplit
      · intro x hx
        rcases List.mem_cons.mp hx with rfl | hx2
        · simp [isBoundaryLine, h1]
        · exact hnb x hx2
      · rw [collectExtras]
        rw [if_pos h1]
        simpa [h1] using hex
    · by_cases h2 : (txMatch (strip l)).isSome
      · refine ⟨[], ?_, by simp, ?_⟩
        · rw [collectExtras, if_neg h1, if_pos h2]
          rfl
        · rw [collectExtras, if_neg h1, if_pos h2]
          rfl
      · by_cases h3 : isFooter (strip l)
        · refine ⟨[], ?_, by simp, ?_⟩
          · rw [collectExtras, if_neg h1, if_neg h2, if_pos h3]
            rfl
          · rw [collectExtras, if_neg h1, if_neg h2, if_pos h3]
            rfl
        · by_cases h4 : strip l = "/"
          · refine ⟨l :: pre, ?_, ?_, ?_⟩
            · rw [collectExtras, if_neg h1, if_neg h2, if_neg h3, if_pos h4]
              simpa using hsplit
            · intro x hx
              rcases List.mem_cons.mp hx with rfl | hx2
              · simp [isBoundaryLine, h2, h3]
              · exact hnb x hx2
            · rw [collectExtras, if_neg h1, if_neg h2, if_neg h3, if_pos h4]
              simpa [h4] using hex
          · refine ⟨l :: pre, ?_, ?_, ?_⟩
            · rw [collectExtras, if_neg h1, if_neg h2, if_neg h3, if_neg h4]
              simpa using hsplit
            · intro x hx
              rcases List.mem_cons.mp hx with rfl | hx2
              · simp [isBoundaryLine, h2, h3]
              · exact hnb x hx2
            · rw [collectExtras, if_neg h1, if_neg h2, if_neg h3, if_neg h4]
              simpa [h1, h4] using hex

theorem collectExtras_boundary (lines : List String) (b : String)
    (rem2 : List String) (h : (collectExtras lines).2 = b :: rem2) :
    isBoundaryLine b = true := by
  induction lines with
  | nil => simp [collectExtras] at h
  | cons l rest ih =>
    rw [collectExtras] at h
    by_cases h1 : strip l = ""
    · rw [if_pos h1] at h
      exact ih h
    · rw [if_neg h1] at h
      by_cases h2 : (txMatch (strip l)).isSome
      · rw [if_pos h2] at h
        dsimp only at h
        injection h with hb hrest
        subst hb
        simp [isBoundaryLine, h1, h2]
      · rw [if_neg h2] at h
        by_cases h3 : isFooter (strip l)
        · rw [if_pos h3] at h
          dsimp only at h
          injection h with hb hrest
          subst hb
          simp [isBoundaryLine, h1, h3]
        · rw [if_neg h3] at h
          by_cases h4 : strip l = "/"
          · rw [if_pos h4] at h
            exact ih h
          · rw [if_neg h4] at h
            dsimp only at h
            exact ih h

theorem mkRow_desc (f : String) (w : List WordBox) (p : Option ℚ) (g : TxG)
    (e : List String) :
    (mkRow f w p g e).1.Description = buildDesc (strip g.desc) e := rfl

theorem finalizeRow_desc (r : Row0) :
    (finalizeRow r).Description = r.Description := rfl

/-- The C8 counterexample page: the middle transaction line carries one
leading space, so its stripped form matches the grammar (ending absorption)
while its raw form does not (so it is never parsed). -/
def cexAbsorbPage : Page :=
  { lines := ["01.01.2025 1111111111 REF 10,00 20,00 x",
              " 02.01.2025 2222222222 REF 30,00 50,00 y",
              "03.01.2025 3333333333 REF 7,00 57,00 z"],
    words := [] }

/-- Matched groups of the first line of `cexAbsorbPage`. -/
def gAbs1 : TxG :=
  ⟨"01.01.2025", "1111111111", "REF", some "10,00", none, "20,00", "x"⟩

/-- Matched groups of the third line of `cexAbsorbPage`. -/
def gAbs3 : TxG :=
  ⟨"03.01.2025", "3333333333", "REF", some "7,00", none, "57,00", "z"⟩

/-- Counterexample to claim C8 as stated: the stripped middle line matches
the transaction grammar, so it terminates the absorption of the first
transaction's description (which stays `"x"`), but — its raw form failing
the anchored match — it is not parsed as the next transaction either: the
run emits only ids 1111111111 and 3333333333. -/
theorem absorption_boundary_cex :
    (txMatch (strip " 02.01.2025 2222222222 REF 30,00 50,00 y")).isSome
      = true ∧
    txMatch " 02.01.2025 2222222222 REF 30,00 50,00 y" = none ∧
    (parse_single_pdf "g.pdf" [cexAbsorbPage]).map
        (fun r => (r.TransactionID, r.Description))
      = [("1111111111", "x"), ("3333333333", "z")] := by
  have hm1 : txMatch "01.01.2025 1111111111 REF 10,00 20,00 x"
      = some gAbs1 := by decide
  have hm2 : txMatch " 02.01.2025 2222222222 REF 30,00 50,00 y" = none := by
    decide
  have hm3 : txMatch "03.01.2025 3333333333 REF 7,00 57,00 z"
      = some gAbs3 := by decide
  have hsb : cexAbsorbPage.lines.findSome?
      (fun c => (startBalanceMatch (strip c)).map to_float) = none := by
    decide
  have hce : collectExtras [" 02.01.2025 2222222222 REF 30,00 50,00 y",
        "03.01.2025 3333333333 REF 7,00 57,00 z"]
      = ([], [" 02.01.2025 2222222222 REF 30,00 50,00 y",
              "03.01.2025 3333333333 REF 7,00 57,00 z"]) := by decide
  refine ⟨by decide, hm2, ?_⟩
  rw [parse_single_pdf_one, parsePage_no_start _ _ _ hsb]
  show ((scanLines "g.pdf" [] cexAbsorbPage.lines none).1.map
    finalizeRow).map _ = _
  rw [show cexAbsorbPage.lines
      = ["01.01.2025 1111111111 REF 10,00 20,00 x",
         " 02.01.2025 2222222222 REF 30,00 50,00 y",
         "03.01.2025 3333333333 REF 7,00 57,00 z"] from rfl]
  rw [scanLines_cons_of_some _ _ _ _ _ _ hm1, hce]
  dsimp only
  rw [scanLines_cons_of_none _ _ _ _ _ hm2,
    scanLines_cons_of_some _ _ _ _ _ _ hm3,
    show collectExtras ([] : List String) = ([], []) from rfl]
  dsimp only
  rw [scanLines_nil]
  dsimp only [List.map_cons, List.map_nil]
  rw [finalizeRow_txid, finalizeRow_txid, finalizeRow_desc, finalizeRow_desc,
    mkRow_txid, mkRow_txid, mkRow_desc, mkRow_desc]
  decide

/-- Claim C8 as amended: absorption consumes lines exactly until the first
line whose whitespace-stripped form matches the transaction grammar or
contains a footer marker (blank and lone `"/"` lines are consumed without
being appended; the collected lines are the stripped non-blank non-`"/"`
ones), the scan resumes at that boundary line, and the boundary is parsed
as the next transaction exactly when its raw (unstripped) form matches the
grammar — a line matching only after stripping is skipped. -/
theorem absorption_amended :
    (∀ lines : List String,
      ∃ pre, lines = pre ++ (collectExtras lines).2 ∧
        (∀ x ∈ pre, isBoundaryLine x = false) ∧
        (collectExtras lines).1
          = (pre.map strip).filter (fun s => s != "" && s != "/")) ∧
    (∀ (lines : List String) (b : String) (rem2 : List String),
      (collectExtras lines).2 = b :: rem2 → isBoundaryLine b = true) ∧
    (∀ (f : String) (w : List WordBox) (l : String) (rest : List String)
        (p : Option ℚ) (g : TxG), txMatch l = some g →
      scanLines f w (l :: rest) p
        = ((mkRow f w p g (collectExtras rest).1).1 ::
            (scanLines f w (collectExtras rest).2
              (some (mkRow f w p g (collectExtras rest).1).2)).1,
           (scanLines f w (collectExtras rest).2
             (some (mkRow f w p g (collectExtras rest).1).2)).2)) ∧
    (∀ (f : String) (w : List WordBox) (l : String) (rest : List String)
        (p : Option ℚ), txMatch l = none →
      scanLines f w (l :: rest) p = scanLines f w rest p) := by
  exact ⟨collectExtras_split, collectExtras_boundary,
    fun f w l rest p g h => scanLines_cons_of_some f w l rest p g h,
    fun f w l rest p h => scanLines_cons_of_none f w l rest p h⟩

/-- Witness for the amended C8: the leading-space line of the
counterexample page is a boundary. -/
theorem absorption_amended_witness :
    (collectExtras [" 02.01.2025 2222222222 REF 30,00 50,00 y"]).2
      = " 02.01.2025 2222222222 REF 30,00 50,00 y" :: [] ∧
    isBoundaryLine " 02.01.2025 2222222222 REF 30,00 50,00 y" = true := by
  refine ⟨by decide, ?_⟩
  exact absorption_amended.2.1
    [" 02.01.2025 2222222222 REF 30,00 50,00 y"]
    " 02.01.2025 2222222222 REF 30,00 50,00 y" [] (by decide)
